import Mathlib

/-!
Shallow embedding of `aten/src/ATen/core/op_registration/op_registration.cpp`:
the operator-registration core (`RegisterOperators` batch registrar and the
`Library` registration session).  The Dispatcher (central Registry) is an
external collaborator of this file; it is modelled from the spec's interface
description (reservation / definition / implementation / fallback registration,
each returning a revocation handle, with the conflict failures the spec lists).

Machine-level conventions of the embedding:
* `TORCH_CHECK` failures become `RegError.config` values (configuration errors),
  `TORCH_INTERNAL_ASSERT` failures become `RegError.internalAssert`,
  and dereferencing an absent `c10::optional` (undefined behaviour in C++)
  becomes `RegError.absentAccess`, tagged with the program point.
* A C++ operation that throws after mutating the dispatcher / the owner's
  handle list returns the mutated state together with the error, matching the
  fact that committed `RegistrationHandleRAII`s stay in `registrars_` when a
  later statement of the same member function throws.  A failing *constructor*
  destroys its already-constructed members, releasing their handles, so
  `Library.init` returns the original dispatcher state on failure.
-/

namespace OpReg

/-- `Library::Kind` from the source: DEF / IMPL / FRAGMENT blocks. -/
inductive Kind
  | DEF
  | IMPL
  | FRAGMENT
deriving DecidableEq, Repr

/-- `c10::DispatchKey`: an enumerated backend tag with a distinguished
catch-all sentinel.  Concrete keys are numbered. -/
inductive DispatchKey
  | CatchAll
  | Key : Nat → DispatchKey
deriving DecidableEq, Repr

/-- `c10::AliasAnalysisKind` (only the members this file inspects). -/
inductive AliasAnalysisKind
  | FROM_SCHEMA
  | CONSERVATIVE
  | PURE_FUNCTION
deriving DecidableEq, Repr

/-- `c10::OperatorName`: in C++ the namespace is embedded in the name string
("ns::op"); here it is split into an optional field, with `getNamespace` /
`setNamespaceIfNotSet` acting on it. -/
structure OperatorName where
  ns : Option String
  name : String
  overloadName : String
deriving DecidableEq, Repr

/-- `c10::FunctionSchema`: name triple plus argument/return shape (argument and
return type descriptors are abstracted to numeric tags, which is all this file
needs), variadic flags and the alias-analysis mode. -/
structure FunctionSchema where
  ns : Option String
  name : String
  overloadName : String
  arguments : List Nat
  returns : List Nat
  isVararg : Bool
  isVarret : Bool
  aliasAnalysis : AliasAnalysisKind
deriving DecidableEq, Repr

def FunctionSchema.operatorName (s : FunctionSchema) : OperatorName :=
  ⟨s.ns, s.name, s.overloadName⟩

/-- `FunctionSchema::cloneWithName`: substitute the full operator name
(namespace included, since the C++ name string carries it). -/
def FunctionSchema.cloneWithName (s : FunctionSchema) (nm : OperatorName) : FunctionSchema :=
  { s with ns := nm.ns, name := nm.name, overloadName := nm.overloadName }

/-- Tags naming the individual `TORCH_CHECK` messages of the source file. -/
inductive ErrMsg
  | noSchemaOrName
  | noKernelSpecified (opName : OperatorName)
  | cannotInferSchema (opName : OperatorName)
  | duplicateDispatchKey (k : DispatchKey)
  | multipleCatchAll
  | fromSchemaOnInferred
  | defWrongKind
  | defRedundantNs (ns : String)
  | defInvalidNs (ns : String)
  | defNoSchemaForName (nm : OperatorName)
  | implRedundantNs (ns : String)
  | implInvalidNs (ns : String)
  | implDispatchKeyConflict
  | fallbackWrongKind
  | fallbackNamespaced
  | wildcardNs
deriving DecidableEq, Repr

/-- The error classes of the embedding (see the file header). -/
inductive RegError
  | config (m : ErrMsg)
  | internalAssert (loc : String)
  | absentAccess (loc : String)
  | registryConflict (loc : String)
deriving DecidableEq, Repr

/-- An error raised by this file's own checks (as opposed to a conflict
surfaced from the Registry). -/
def RegError.isCoreError : RegError → Bool
  | .registryConflict _ => false
  | _ => true

/-- A revocation handle (`RegistrationHandleRAII`), tagged by the registration
it undoes. -/
inductive RegistrationHandle
  | lib (ns : String)
  | defn (name : OperatorName)
  | impl (name : OperatorName) (k : Option DispatchKey)
  | fallback (k : DispatchKey)
deriving DecidableEq, Repr

/-- Modelled from the spec: the Registry's visible table — reserved
namespaces, registered operator definitions, registered implementations
(operator name, optional dispatch key, callable id), registered fallbacks.
The Dispatcher itself is outside this source file. -/
structure DispatcherState where
  libs : List String
  defs : List FunctionSchema
  impls : List (OperatorName × Option DispatchKey × Nat)
  fallbacks : List (DispatchKey × Nat)
deriving DecidableEq, Repr

/-- Modelled from the spec: `reserveNamespace(ns) -> RevocationHandle`,
failing if the namespace is already reserved by a Definition block. -/
def registerLibrary (st : DispatcherState) (ns : String) :
    Except RegError (DispatcherState × RegistrationHandle) :=
  if ns ∈ st.libs then .error (.registryConflict "registerLibrary")
  else .ok ({ st with libs := ns :: st.libs }, .lib ns)

/-- Modelled from the spec: `registerDefinition(schema) -> RevocationHandle`,
failing on a duplicate operator definition (same full operator name). -/
def registerDef (st : DispatcherState) (schema : FunctionSchema) :
    Except RegError (DispatcherState × RegistrationHandle) :=
  if st.defs.any (fun s => decide (s.operatorName = schema.operatorName)) then
    .error (.registryConflict "registerDef")
  else .ok ({ st with defs := schema :: st.defs }, .defn schema.operatorName)

/-- Modelled from the spec: `registerImplementation(name, key, callable,
fragment) -> RevocationHandle`, failing on a duplicate implementation for the
same (operator, dispatch key). -/
def registerImpl (st : DispatcherState) (name : OperatorName)
    (dk : Option DispatchKey) (func : Nat) (inferredSchema : Option FunctionSchema) :
    Except RegError (DispatcherState × RegistrationHandle) :=
  if st.impls.any (fun e => decide (e.1 = name) && decide (e.2.1 = dk)) then
    .error (.registryConflict "registerImpl")
  else .ok ({ st with impls := (name, dk, func) :: st.impls }, .impl name dk)

/-- Modelled from the spec: `registerFallback(key, callable) ->
RevocationHandle`; the spec lists no failure mode for it. -/
def registerFallback (st : DispatcherState) (dk : DispatchKey) (func : Nat) :
    DispatcherState × RegistrationHandle :=
  ({ st with fallbacks := (dk, func) :: st.fallbacks }, .fallback dk)

/-- One entry of `RegisterOperators::Options::kernels`: a callable (abstracted
to an id), an optional dispatch key, and an optional inferred schema fragment
(the nullable `inferred_function_schema` unique_ptr). -/
structure KernelEntry where
  func : Nat
  dispatchKey : Option DispatchKey
  inferredFunctionSchema : Option FunctionSchema
deriving DecidableEq, Repr

/-- `RegisterOperators::Options`: the schema-or-name either (left = bare
operator name, right = full schema), the kernel list, and the optional
alias-analysis override. -/
structure Options where
  schemaOrName : Option (Sum OperatorName FunctionSchema)
  kernels : List KernelEntry
  aliasAnalysisKind : Option AliasAnalysisKind
deriving DecidableEq, Repr

namespace RegisterOperators

/-- The scan of `checkNoDuplicateKernels_`: walk the kernels keeping the set of
dispatch keys seen so far and whether a catch-all kernel was seen. -/
def checkNoDuplicateKernelsGo : List KernelEntry → List DispatchKey → Bool →
    Except RegError Unit
  | [], _, _ => .ok ()
  | k :: rest, seen, hasCatchall =>
    match k.dispatchKey with
    | some dk =>
      if dk ∈ seen then .error (.config (.duplicateDispatchKey dk))
      else checkNoDuplicateKernelsGo rest (dk :: seen) hasCatchall
    | none =>
      if hasCatchall then .error (.config .multipleCatchAll)
      else checkNoDuplicateKernelsGo rest seen true

/-- `RegisterOperators::checkNoDuplicateKernels_`. -/
def checkNoDuplicateKernels (options : Options) : Except RegError Unit :=
  checkNoDuplicateKernelsGo options.kernels [] false

/-- The loop of `inferSchemaFromKernels_`: the first kernel (in list order)
whose inferred schema fragment is non-null wins; the loop breaks there. -/
def firstInferredSchema : List KernelEntry → Option FunctionSchema
  | [] => none
  | k :: rest =>
    match k.inferredFunctionSchema with
    | some s => some s
    | none => firstInferredSchema rest

/-- `RegisterOperators::inferSchemaFromKernels_`. -/
def inferSchemaFromKernels (opName : OperatorName) (options : Options) :
    Except RegError FunctionSchema :=
  if options.kernels.length > 0 then
    match firstInferredSchema options.kernels with
    | some s => .ok s
    | none => .error (.config (.cannotInferSchema opName))
  else .error (.config (.noKernelSpecified opName))

/-- The schema built at lines 60–67 of the source: a fresh `FunctionSchema`
from the bare operator name (namespace included) and the inferred fragment's
arguments / returns / variadic flags; a fresh schema's alias-analysis mode is
the external default (CONSERVATIVE). -/
def graftSchema (nm : OperatorName) (s : FunctionSchema) : FunctionSchema :=
  ⟨nm.ns, nm.name, nm.overloadName, s.arguments, s.returns, s.isVararg, s.isVarret,
    AliasAnalysisKind.CONSERVATIVE⟩

/-- The alias-analysis override at the top of `registerOp_`:
`schema.setAliasAnalysis(*options.aliasAnalysisKind_)` when present. -/
def applyAliasOverride (o : Option AliasAnalysisKind) (s : FunctionSchema) : FunctionSchema :=
  match o with
  | some a => { s with aliasAnalysis := a }
  | none => s

/-- The per-kernel loop at the bottom of `registerOp_`: register each kernel as
an implementation, appending each handle; an error stops the loop, leaving the
handles already appended in place. -/
def registerImplsLoop (st : DispatcherState) (rs : List RegistrationHandle)
    (name : OperatorName) : List KernelEntry →
    DispatcherState × List RegistrationHandle × Option RegError
  | [] => (st, rs, none)
  | k :: rest =>
    match registerImpl st name k.dispatchKey k.func k.inferredFunctionSchema with
    | .error e => (st, rs, some e)
    | .ok (st1, h) => registerImplsLoop st1 (rs ++ [h]) name rest

/-- `RegisterOperators::registerOp_`: requires the schema-or-name either to
hold a schema (the C++ `.right()` on a left would assert); applies the
alias-analysis override, registers the definition, then every kernel. -/
def registerOp (st : DispatcherState) (rs : List RegistrationHandle) (options : Options) :
    DispatcherState × List RegistrationHandle × Option RegError :=
  match options.schemaOrName with
  | some (Sum.inr schema0) =>
    let schema := applyAliasOverride options.aliasAnalysisKind schema0
    match registerDef st schema with
    | .error e => (st, rs, some e)
    | .ok (st1, h) => registerImplsLoop st1 (rs ++ [h]) schema.operatorName options.kernels
  | _ => (st, rs, some (.internalAssert "registerOp right on non-right either"))

/-- `RegisterOperators::checkSchemaAndRegisterOp_`: one batch commit, acting on
the dispatcher state and the registrar's owned handle list. -/
def checkSchemaAndRegisterOp (st : DispatcherState) (rs : List RegistrationHandle)
    (options : Options) : DispatcherState × List RegistrationHandle × Option RegError :=
  match options.schemaOrName with
  | none => (st, rs, some (.config .noSchemaOrName))
  | some (Sum.inr _) =>
    match checkNoDuplicateKernels options with
    | .error e => (st, rs, some e)
    | .ok _ => registerOp st rs options
  | some (Sum.inl name) =>
    match inferSchemaFromKernels name options with
    | .error e => (st, rs, some e)
    | .ok inferred =>
      let options1 := { options with schemaOrName := some (Sum.inr (graftSchema name inferred)) }
      match checkNoDuplicateKernels options1 with
      | .error e => (st, rs, some e)
      | .ok _ =>
        if options1.aliasAnalysisKind = some AliasAnalysisKind.FROM_SCHEMA then
          (st, rs, some (.config .fromSchemaOnInferred))
        else registerOp st rs options1

end RegisterOperators

/-- `torch::CppFunction`: callable id, optional explicit dispatch key, optional
inferred schema (`schema_`). -/
structure CppFunction where
  func : Nat
  dispatchKey : Option DispatchKey
  schema : Option FunctionSchema
deriving DecidableEq, Repr

/-- A registration session (`torch::Library`): kind, normalized namespace,
normalized dispatch key, and the list of revocation handles it owns. -/
structure Library where
  kind : Kind
  ns : Option String
  dispatchKey : Option DispatchKey
  registrars : List RegistrationHandle
deriving DecidableEq, Repr

/-- The namespace normalization of the `Library` constructor's initializer
list: `ns == "_" ? nullopt : make_optional(ns)`. -/
def normalizeNs (ns0 : String) : Option String :=
  if ns0 = "_" then none else some ns0

/-- The dispatch-key normalization of the `Library` constructor's initializer
list: `(!k.has_value() || *k == CatchAll) ? nullopt : k`. -/
def normalizeKey (k0 : Option DispatchKey) : Option DispatchKey :=
  match k0 with
  | none => none
  | some DispatchKey.CatchAll => none
  | some k => some k

/-- `Library::Library` (the constructor): normalizes the wildcard namespace
"_" and the catch-all dispatch key to absent; DEF reserves the namespace in
the Registry (dereferencing `ns_` *before* the has-value check, so an absent
namespace is an absent-optional access there) and falls through to the
FRAGMENT checks; IMPL checks nothing.  A failing constructor destroys the
already-constructed members, releasing any handle just obtained, so the
dispatcher state reverts on failure. -/
def Library.init (st : DispatcherState) (kind : Kind) (ns0 : String)
    (k0 : Option DispatchKey) : DispatcherState × Except RegError Library :=
  let ns : Option String := normalizeNs ns0
  let dk : Option DispatchKey := normalizeKey k0
  match kind with
  | .DEF =>
    match ns with
    | none => (st, .error (.absentAccess "Library ctor registerLibrary ns"))
    | some n =>
      match registerLibrary st n with
      | .error e => (st, .error e)
      | .ok (st1, h) =>
        if dk.isSome then (st, .error (.internalAssert "Library ctor dispatch key"))
        else (st1, .ok ⟨.DEF, ns, dk, [h]⟩)
  | .FRAGMENT =>
    if ns.isNone then (st, .error (.config .wildcardNs))
    else if dk.isSome then (st, .error (.internalAssert "Library ctor dispatch key"))
    else (st, .ok ⟨.FRAGMENT, ns, dk, []⟩)
  | .IMPL => (st, .ok ⟨.IMPL, ns, dk, []⟩)

/-- `Library::_def(FunctionSchema&&, OperatorName*)`: kind check, internal
asserts on the session's namespace and dispatch key, then the schema-namespace
resolution (redundant / invalid / inject), the out-name write, and the
Registry definition call.  The third component is the resolved operator name
(the out parameter), written before the Registry call as in the source. -/
def Library.defSchema (lib : Library) (st : DispatcherState) (schema : FunctionSchema) :
    DispatcherState × Library × Option OperatorName × Option RegError :=
  if ¬(lib.kind = .DEF ∨ lib.kind = .FRAGMENT) then
    (st, lib, none, some (.config .defWrongKind))
  else
    match lib.ns with
    | none => (st, lib, none, some (.internalAssert "def ns has_value"))
    | some lns =>
      if lib.dispatchKey.isSome then
        (st, lib, none, some (.internalAssert "def dispatch key absent"))
      else
        match schema.ns with
        | some sns =>
          if sns = lns then (st, lib, none, some (.config (.defRedundantNs lns)))
          else (st, lib, none, some (.config (.defInvalidNs sns)))
        | none =>
          let schema1 := { schema with ns := some lns }
          let name := schema1.operatorName
          match registerDef st schema1 with
          | .error e => (st, lib, some name, some e)
          | .ok (st1, h) =>
            (st1, { lib with registrars := lib.registrars ++ [h] }, some name, none)

/-- `Library::_def(either<OperatorName, FunctionSchema>&&, CppFunction&&)`:
resolve the schema (clone the kernel's inferred schema with the bare name and
CONSERVATIVE alias analysis when only a name was given), define it through
`defSchema`, then register the implementation under the resolved name with the
kernel's key if present, else the session's. -/
def Library.defEither (lib : Library) (st : DispatcherState)
    (nameOrSchema : Sum OperatorName FunctionSchema) (f : CppFunction) :
    DispatcherState × Library × Option RegError :=
  let schemaE : Except RegError FunctionSchema :=
    match nameOrSchema with
    | Sum.inr s => .ok s
    | Sum.inl nm =>
      match f.schema with
      | none => .error (.config (.defNoSchemaForName nm))
      | some fs => .ok { fs.cloneWithName nm with aliasAnalysis := .CONSERVATIVE }
  match schemaE with
  | .error e => (st, lib, some e)
  | .ok schema =>
    match lib.defSchema st schema with
    | (st1, lib1, _, some e) => (st1, lib1, some e)
    | (st1, lib1, nameOpt, none) =>
      let name := nameOpt.getD ⟨none, "", ""⟩
      let dk := if f.dispatchKey.isSome then f.dispatchKey else lib1.dispatchKey
      match registerImpl st1 name dk f.func f.schema with
      | .error e => (st1, lib1, some e)
      | .ok (st2, h) => (st2, { lib1 with registrars := lib1.registrars ++ [h] }, none)

/-- `Library::_impl`: the operator name arrives already parsed (the name
parser is external).  If the name carries a namespace it is compared with the
session's (`*ns_` — an absent-optional access when the session namespace is
absent); otherwise the session namespace is injected (`ns_->c_str()` — again an
absent-optional access when absent).  Then the kernel/session dispatch-key
exclusivity check, then the Registry implementation call. -/
def Library.implOp (lib : Library) (st : DispatcherState) (name0 : OperatorName)
    (f : CppFunction) : DispatcherState × Library × Option RegError :=
  match name0.ns with
  | some nsOpt =>
    match lib.ns with
    | none => (st, lib, some (.absentAccess "impl compare ns"))
    | some lns =>
      if nsOpt = lns then (st, lib, some (.config (.implRedundantNs lns)))
      else (st, lib, some (.config (.implInvalidNs nsOpt)))
  | none =>
    match lib.ns with
    | none => (st, lib, some (.absentAccess "impl inject ns"))
    | some lns =>
      let name := { name0 with ns := some lns }
      if f.dispatchKey.isSome ∧ lib.dispatchKey.isSome then
        (st, lib, some (.config .implDispatchKeyConflict))
      else
        let dk := if f.dispatchKey.isSome then f.dispatchKey else lib.dispatchKey
        match registerImpl st name dk f.func f.schema with
        | .error e => (st, lib, some e)
        | .ok (st1, h) => (st1, { lib with registrars := lib.registrars ++ [h] }, none)

/-- `Library::_fallback`: kind must be IMPL; the effective dispatch key is
resolved and internally asserted present *before* the namespace check (whose
message renders `*dispatch_key`); the namespace must be absent (wildcard);
then the Registry fallback call. -/
def Library.fallbackOp (lib : Library) (st : DispatcherState) (f : CppFunction) :
    DispatcherState × Library × Option RegError :=
  if lib.kind ≠ .IMPL then (st, lib, some (.config .fallbackWrongKind))
  else
    let dk := if f.dispatchKey.isSome then f.dispatchKey else lib.dispatchKey
    match dk with
    | none => (st, lib, some (.internalAssert "fallback dispatch key"))
    | some k =>
      match lib.ns with
      | some _ => (st, lib, some (.config .fallbackNamespaced))
      | none =>
        let (st1, h) := registerFallback st k f.func
        (st1, { lib with registrars := lib.registrars ++ [h] }, none)

/-! ## Helper lemmas about the Registry model -/

theorem registerDef_error {st : DispatcherState} {s : FunctionSchema} {e : RegError}
    (h : registerDef st s = .error e) : e = .registryConflict "registerDef" := by
  unfold registerDef at h
  split at h
  · simp only [Except.error.injEq] at h
    exact h.symm
  · cases h

theorem registerImpl_error {st : DispatcherState} {nm : OperatorName}
    {dk : Option DispatchKey} {fn : Nat} {fs : Option FunctionSchema} {e : RegError}
    (h : registerImpl st nm dk fn fs = .error e) : e = .registryConflict "registerImpl" := by
  unfold registerImpl at h
  split at h
  · simp only [Except.error.injEq] at h
    exact h.symm
  · cases h

theorem registerLibrary_error {st : DispatcherState} {n : String} {e : RegError}
    (h : registerLibrary st n = .error e) : e = .registryConflict "registerLibrary" := by
  unfold registerLibrary at h
  split at h
  · simp only [Except.error.injEq] at h
    exact h.symm
  · cases h

theorem registerDef_ok {st st1 : DispatcherState} {s : FunctionSchema}
    {hh : RegistrationHandle} (h : registerDef st s = .ok (st1, hh)) :
    st1 = { st with defs := s :: st.defs } ∧ hh = .defn s.operatorName := by
  unfold registerDef at h
  split at h
  · cases h
  · simp only [Except.ok.injEq, Prod.mk.injEq] at h
    exact ⟨h.1.symm, h.2.symm⟩

theorem registerImpl_ok {st st1 : DispatcherState} {nm : OperatorName}
    {dk : Option DispatchKey} {fn : Nat} {fs : Option FunctionSchema}
    {hh : RegistrationHandle} (h : registerImpl st nm dk fn fs = .ok (st1, hh)) :
    st1 = { st with impls := (nm, dk, fn) :: st.impls } ∧ hh = .impl nm dk := by
  unfold registerImpl at h
  split at h
  · cases h
  · simp only [Except.ok.injEq, Prod.mk.injEq] at h
    exact ⟨h.1.symm, h.2.symm⟩

theorem registerLibrary_ok {st st1 : DispatcherState} {n : String}
    {hh : RegistrationHandle} (h : registerLibrary st n = .ok (st1, hh)) :
    st1 = { st with libs := n :: st.libs } ∧ hh = .lib n := by
  unfold registerLibrary at h
  split at h
  · cases h
  · simp only [Except.ok.injEq, Prod.mk.injEq] at h
    exact ⟨h.1.symm, h.2.symm⟩

theorem registerImplsLoop_error {nm : OperatorName} :
    ∀ (ks : List KernelEntry) (st : DispatcherState) (rs : List RegistrationHandle)
      (e : RegError),
      (RegisterOperators.registerImplsLoop st rs nm ks).2.2 = some e →
      e = .registryConflict "registerImpl" := by
  intro ks
  induction ks with
  | nil =>
      intro st rs e h
      simp [RegisterOperators.registerImplsLoop] at h
  | cons k rest ih =>
      intro st rs e h
      unfold RegisterOperators.registerImplsLoop at h
      cases hreg : registerImpl st nm k.dispatchKey k.func k.inferredFunctionSchema with
      | error e1 =>
          rw [hreg] at h
          simp only [Option.some.injEq] at h
          rw [← h]
          exact registerImpl_error hreg
      | ok p =>
          rw [hreg] at h
          exact ih p.1 (rs ++ [p.2]) e h

theorem registerImplsLoop_defs {nm : OperatorName} :
    ∀ (ks : List KernelEntry) (st : DispatcherState) (rs : List RegistrationHandle),
      (RegisterOperators.registerImplsLoop st rs nm ks).1.defs = st.defs := by
  intro ks
  induction ks with
  | nil =>
      intro st rs
      simp [RegisterOperators.registerImplsLoop]
  | cons k rest ih =>
      intro st rs
      unfold RegisterOperators.registerImplsLoop
      cases hreg : registerImpl st nm k.dispatchKey k.func k.inferredFunctionSchema with
      | error e1 => simp
      | ok p =>
          have := ih p.1 (rs ++ [p.2])
          rw [this]
          unfold registerImpl at hreg
          split at hreg
          · cases hreg
          · simp only [Except.ok.injEq] at hreg
            rw [← hreg]

/-! ## Concrete sample inputs used by counterexamples and witnesses -/

def st0 : DispatcherState := ⟨[], [], [], []⟩

def sampleSchema : FunctionSchema :=
  ⟨some "myns", "op", "", [1], [2], false, false, .CONSERVATIVE⟩

def sampleName : OperatorName := ⟨some "myns", "op", ""⟩

/-- A batch-registrar configuration with an explicit schema and zero kernels. -/
def optsExplicitEmpty : Options := ⟨some (Sum.inr sampleSchema), [], none⟩

/-- A batch-registrar configuration with a bare name and zero kernels. -/
def optsNameEmpty : Options := ⟨some (Sum.inl sampleName), [], none⟩

/-! ## C1 -/

/-- C1 counterexample: a batch commit with an explicit schema and an empty
kernel list does *not* fail — it registers the definition (one revocation
handle), so the "no kernel specified" failure is not independent of whether a
schema was supplied. -/
theorem C1_counterexample :
    (RegisterOperators.checkSchemaAndRegisterOp st0 [] optsExplicitEmpty).2.2 = none
    ∧ (RegisterOperators.checkSchemaAndRegisterOp st0 [] optsExplicitEmpty).2.1.length = 1 := by
  constructor <;> rfl

/-- C1 (amended): a batch commit with an empty kernel list fails with the
"no kernel specified" configuration error, registering nothing, exactly when
no explicit schema was supplied (the schema-or-name either holds a bare name);
when an explicit schema was supplied, the empty-kernel commit never raises
that error. -/
theorem C1_theorem (st : DispatcherState) (rs : List RegistrationHandle) (opts : Options)
    (hk : opts.kernels = []) :
    (∀ nm, opts.schemaOrName = some (Sum.inl nm) →
      RegisterOperators.checkSchemaAndRegisterOp st rs opts
        = (st, rs, some (.config (.noKernelSpecified nm))))
    ∧ ∀ s nm, opts.schemaOrName = some (Sum.inr s) →
      (RegisterOperators.checkSchemaAndRegisterOp st rs opts).2.2
        ≠ some (.config (.noKernelSpecified nm)) := by
  constructor
  · intro nm hso
    simp [RegisterOperators.checkSchemaAndRegisterOp, hso,
      RegisterOperators.inferSchemaFromKernels, hk]
  · intro s nm hso
    simp only [RegisterOperators.checkSchemaAndRegisterOp, hso]
    have hdup : RegisterOperators.checkNoDuplicateKernels opts = .ok () := by
      simp [RegisterOperators.checkNoDuplicateKernels, hk,
        RegisterOperators.checkNoDuplicateKernelsGo]
    rw [hdup]
    simp only [RegisterOperators.registerOp, hso]
    cases hdef : registerDef st (RegisterOperators.applyAliasOverride opts.aliasAnalysisKind s) with
    | error e =>
        have he := registerDef_error hdef
        simp [he]
    | ok p =>
        simp [hk, RegisterOperators.registerImplsLoop]

/-- C1 witness: the amended theorem applied to the concrete empty-kernel,
name-only configuration. -/
theorem C1_witness :
    RegisterOperators.checkSchemaAndRegisterOp st0 [] optsNameEmpty
      = (st0, [], some (.config (.noKernelSpecified sampleName))) :=
  (C1_theorem st0 [] optsNameEmpty rfl).1 sampleName rfl

/-! ## C9 -/

/-- C9: in the Session constructor, the DEF branch passes `*ns_` to the
Registry reservation before the wildcard check runs, so constructing a
Definition-kind Session with namespace "_" is an absent-optional access (the
state unchanged), and the "cannot define with the wildcard namespace"
configuration error is reachable only with Fragment kind. -/
theorem C9_theorem :
    (∀ (st : DispatcherState) (k0 : Option DispatchKey),
      Library.init st .DEF "_" k0
        = (st, .error (.absentAccess "Library ctor registerLibrary ns")))
    ∧ ∀ (st : DispatcherState) (kind : Kind) (ns0 : String) (k0 : Option DispatchKey),
      (Library.init st kind ns0 k0).2 = .error (.config .wildcardNs) →
      kind = .FRAGMENT := by
  constructor
  · intro st k0
    rfl
  · intro st kind ns0 k0 h
    cases kind with
    | DEF =>
        unfold Library.init at h
        simp only [normalizeNs] at h
        split at h
        · simp at h
        · rename_i n hn
          cases hreg : registerLibrary st n with
          | error e =>
              rw [hreg] at h
              rw [registerLibrary_error hreg] at h
              simp at h
          | ok p =>
              obtain ⟨st1, hh⟩ := p
              rw [hreg] at h
              split at h
              · rename_i e heq
                cases heq
              · split at h <;> simp at h
    | FRAGMENT => rfl
    | IMPL =>
        unfold Library.init at h
        simp at h

/-- C9 witness: the Fragment construction with the wildcard namespace does
produce the wildcard-namespace configuration error, and the theorem applied
there recovers the kind. -/
theorem C9_witness :
    (Library.init st0 .FRAGMENT "_" none).2 = .error (.config .wildcardNs)
    ∧ Library.init st0 .DEF "_" none
        = (st0, .error (.absentAccess "Library ctor registerLibrary ns")) :=
  ⟨by rfl, C9_theorem.1 st0 none⟩

/-! ## C10 -/

/-- C10: in a wildcard (absent-namespace) Implementation Session, binding a
kernel to an operator name that carries no namespace hits the
namespace-injection step's access of the absent session namespace
(`ns_->c_str()`); a fully-qualified name never reaches that injection-step
access (it takes the explicit-namespace branch instead). -/
theorem C10_theorem (lib : Library) (st : DispatcherState) (name0 : OperatorName)
    (f : CppFunction) (hkind : lib.kind = .IMPL) (hns : lib.ns = none) :
    (name0.ns = none →
      lib.implOp st name0 f = (st, lib, some (.absentAccess "impl inject ns")))
    ∧ ∀ s, name0.ns = some s →
      (lib.implOp st name0 f).2.2 ≠ some (.absentAccess "impl inject ns") := by
  constructor
  · intro h0
    unfold Library.implOp
    rw [h0, hns]
  · intro s h0
    unfold Library.implOp
    rw [h0, hns]
    simp

/-- C10 witness: concrete wildcard Implementation Session; the unqualified
name "op" hits the injection-step absent access, the qualified name
"myns::op" does not. -/
theorem C10_witness :
    (Library.implOp ⟨.IMPL, none, none, []⟩ st0 ⟨none, "op", ""⟩ ⟨3, none, none⟩
        = (st0, ⟨.IMPL, none, none, []⟩, some (.absentAccess "impl inject ns")))
    ∧ (Library.implOp ⟨.IMPL, none, none, []⟩ st0 sampleName ⟨3, none, none⟩).2.2
        ≠ some (.absentAccess "impl inject ns") :=
  ⟨(C10_theorem ⟨.IMPL, none, none, []⟩ st0 ⟨none, "op", ""⟩ ⟨3, none, none⟩ rfl rfl).1 rfl,
   (C10_theorem ⟨.IMPL, none, none, []⟩ st0 sampleName ⟨3, none, none⟩ rfl rfl).2 "myns" rfl⟩

/-! ## C6 -/

/-- C6 counterexample: an Implementation Session with the concrete namespace
"mylib" and no dispatch key anywhere fails `bindFallback` with an *internal
invariant violation* (the dispatch-key assert precedes the namespace check),
not with a configuration error as the claim states for every
concrete-namespace Implementation Session. -/
theorem C6_counterexample :
    Library.fallbackOp ⟨.IMPL, some "mylib", none, []⟩ st0 ⟨3, none, none⟩
      = (st0, ⟨.IMPL, some "mylib", none, []⟩, some (.internalAssert "fallback dispatch key"))
    ∧ ∀ m, (Library.fallbackOp ⟨.IMPL, some "mylib", none, []⟩ st0 ⟨3, none, none⟩).2.2
        ≠ some (.config m) := by
  constructor
  · rfl
  · intro m h
    cases h

/-- C6 (amended): `bindFallback` fails with a configuration error on any
non-Implementation Session; on an Implementation Session it first resolves the
effective dispatch key and fails with an internal invariant violation when
neither the kernel nor the Session provides one (even if the namespace is
concrete); with a resolvable key and a concrete namespace it fails with the
configuration error instructing use of the global wildcard block; with a
resolvable key and wildcard namespace it commits exactly one fallback
registration and appends exactly one revocation handle. -/
theorem C6_theorem (lib : Library) (st : DispatcherState) (f : CppFunction) :
    (lib.kind ≠ .IMPL →
      lib.fallbackOp st f = (st, lib, some (.config .fallbackWrongKind)))
    ∧ (lib.kind = .IMPL → f.dispatchKey = none → lib.dispatchKey = none →
      lib.fallbackOp st f = (st, lib, some (.internalAssert "fallback dispatch key")))
    ∧ (∀ n k, lib.kind = .IMPL → lib.ns = some n →
      (if f.dispatchKey.isSome then f.dispatchKey else lib.dispatchKey) = some k →
      lib.fallbackOp st f = (st, lib, some (.config .fallbackNamespaced)))
    ∧ ∀ k, lib.kind = .IMPL → lib.ns = none →
      (if f.dispatchKey.isSome then f.dispatchKey else lib.dispatchKey) = some k →
      lib.fallbackOp st f
        = ({ st with fallbacks := (k, f.func) :: st.fallbacks },
           { lib with registrars := lib.registrars ++ [.fallback k] }, none) := by
  refine ⟨?_, ?_, ?_, ?_⟩
  · intro hkind
    unfold Library.fallbackOp
    simp [hkind]
  · intro hkind hf hl
    unfold Library.fallbackOp
    simp [hkind, hf, hl]
  · intro n k hkind hns hdk
    unfold Library.fallbackOp
    simp only [hkind, ne_eq, not_true_eq_false, if_false, hdk, hns]
  · intro k hkind hns hdk
    unfold Library.fallbackOp
    simp only [hkind, ne_eq, not_true_eq_false, if_false, hdk, hns]
    rfl

/-- C6 witness: the amended theorem applied at concrete inputs — the
no-key internal assert and the wildcard-namespace success. -/
theorem C6_witness :
    Library.fallbackOp ⟨.IMPL, some "mylib", none, []⟩ st0 ⟨4, none, none⟩
      = (st0, ⟨.IMPL, some "mylib", none, []⟩, some (.internalAssert "fallback dispatch key"))
    ∧ Library.fallbackOp ⟨.IMPL, none, some (.Key 2), []⟩ st0 ⟨4, none, none⟩
      = ({ st0 with fallbacks := [(.Key 2, 4)] },
         ⟨.IMPL, none, some (.Key 2), [.fallback (.Key 2)]⟩, none) :=
  ⟨(C6_theorem ⟨.IMPL, some "mylib", none, []⟩ st0 ⟨4, none, none⟩).2.1 rfl rfl rfl,
   (C6_theorem ⟨.IMPL, none, some (.Key 2), []⟩ st0 ⟨4, none, none⟩).2.2.2 (.Key 2) rfl rfl rfl⟩

/-! ## C3 -/

/-- C3: for `define(schema)` on a Definition/Fragment Session and for
`bind(name, kernel)` on a Session with a concrete namespace: an explicit
namespace equal to the Session's fails with the "redundant" configuration
error, a different one fails with the "move to the correct block"
configuration error, both before any Registry mutation (state and owned
handles unchanged); an absent namespace is replaced by the Session's and the
operation proceeds (no namespace configuration error, and on success the
committed registration carries the injected namespace). -/
theorem C3_theorem :
    (∀ (lib : Library) (st : DispatcherState) (schema : FunctionSchema) (lns : String),
      (lib.kind = .DEF ∨ lib.kind = .FRAGMENT) → lib.ns = some lns → lib.dispatchKey = none →
      (schema.ns = some lns →
        lib.defSchema st schema = (st, lib, none, some (.config (.defRedundantNs lns))))
      ∧ (∀ sns, schema.ns = some sns → sns ≠ lns →
        lib.defSchema st schema = (st, lib, none, some (.config (.defInvalidNs sns))))
      ∧ (schema.ns = none →
        (lib.defSchema st schema).2.2.1 = some ⟨some lns, schema.name, schema.overloadName⟩
        ∧ ((lib.defSchema st schema).2.2.2 = none →
            (lib.defSchema st schema).1.defs = { schema with ns := some lns } :: st.defs
            ∧ (lib.defSchema st schema).2.1.registrars
                = lib.registrars ++ [.defn ⟨some lns, schema.name, schema.overloadName⟩])
        ∧ ∀ m, (lib.defSchema st schema).2.2.2 ≠ some (.config m)))
    ∧ ∀ (lib : Library) (st : DispatcherState) (name0 : OperatorName) (f : CppFunction)
        (lns : String), lib.ns = some lns →
      (name0.ns = some lns →
        lib.implOp st name0 f = (st, lib, some (.config (.implRedundantNs lns))))
      ∧ (∀ sns, name0.ns = some sns → sns ≠ lns →
        lib.implOp st name0 f = (st, lib, some (.config (.implInvalidNs sns))))
      ∧ (name0.ns = none →
        (∀ x, (lib.implOp st name0 f).2.2 ≠ some (.config (.implRedundantNs x))
            ∧ (lib.implOp st name0 f).2.2 ≠ some (.config (.implInvalidNs x)))
        ∧ ((lib.implOp st name0 f).2.2 = none →
            (lib.implOp st name0 f).1.impls
              = (⟨some lns, name0.name, name0.overloadName⟩,
                 (if f.dispatchKey.isSome then f.dispatchKey else lib.dispatchKey),
                 f.func) :: st.impls)) := by
  constructor
  · intro lib st schema lns hkind hns hdk
    have hknd : ¬¬(lib.kind = .DEF ∨ lib.kind = .FRAGMENT) := not_not_intro hkind
    refine ⟨?_, ?_, ?_⟩
    · intro hsns
      unfold Library.defSchema
      rw [if_neg hknd, hns, hdk]
      simp [hsns]
    · intro sns hsns hne
      unfold Library.defSchema
      rw [if_neg hknd, hns, hdk]
      simp [hsns, hne]
    · intro hsns
      unfold Library.defSchema
      rw [if_neg hknd, hns, hdk]
      simp only [Option.isSome_none, Bool.false_eq_true, if_false, hsns]
      cases hreg : registerDef st { schema with ns := some lns } with
      | error e =>
          refine ⟨rfl, ?_, ?_⟩
          · intro h
            cases h
          · intro m h
            simp only [Option.some.injEq] at h
            rw [registerDef_error hreg] at h
            cases h
      | ok p =>
          obtain ⟨st1, hh⟩ := p
          have hsplit := hreg
          unfold registerDef at hsplit
          split at hsplit
          · cases hsplit
          · simp only [Except.ok.injEq, Prod.mk.injEq] at hsplit
            obtain ⟨hst1, hhh⟩ := hsplit
            subst hst1
            subst hhh
            exact ⟨rfl, fun _ => ⟨rfl, rfl⟩, fun m h => by cases h⟩
  · intro lib st name0 f lns hns
    refine ⟨?_, ?_, ?_⟩
    · intro hn0
      unfold Library.implOp
      rw [hn0, hns]
      simp
    · intro sns hn0 hne
      unfold Library.implOp
      rw [hn0, hns]
      simp [hne]
    · intro hn0
      unfold Library.implOp
      rw [hn0, hns]
      simp only []
      split
      · refine ⟨fun x => ⟨fun h => ?_, fun h => ?_⟩, fun h => ?_⟩ <;> simp at h
      · cases hreg : registerImpl st { name0 with ns := some lns }
            (if f.dispatchKey.isSome then f.dispatchKey else lib.dispatchKey) f.func f.schema with
        | error e =>
            refine ⟨fun x => ⟨?_, ?_⟩, ?_⟩
            · intro h
              simp only [Option.some.injEq] at h
              rw [registerImpl_error hreg] at h
              cases h
            · intro h
              simp only [Option.some.injEq] at h
              rw [registerImpl_error hreg] at h
              cases h
            · intro h
              cases h
        | ok p =>
            obtain ⟨st1, hh⟩ := p
            obtain ⟨hst1, hhh⟩ := registerImpl_ok hreg
            subst hst1
            subst hhh
            exact ⟨fun x => ⟨fun h => by simp at h, fun h => by simp at h⟩, fun _ => rfl⟩

/-- C3 witness: the theorem applied at concrete inputs — redundant namespace
in `define`, mismatched namespace in `bind`, and namespace injection in
`bind`. -/
theorem C3_witness :
    Library.defSchema ⟨.DEF, some "myns", none, []⟩ st0 sampleSchema
      = (st0, ⟨.DEF, some "myns", none, []⟩, none, some (.config (.defRedundantNs "myns")))
    ∧ Library.implOp ⟨.IMPL, some "otherlib", none, []⟩ st0 ⟨some "mylib", "add", ""⟩
        ⟨3, none, none⟩
      = (st0, ⟨.IMPL, some "otherlib", none, []⟩, some (.config (.implInvalidNs "mylib")))
    ∧ ((Library.implOp ⟨.IMPL, some "otherlib", none, []⟩ st0 ⟨none, "add", ""⟩
        ⟨3, none, none⟩).2.2 = none →
       (Library.implOp ⟨.IMPL, some "otherlib", none, []⟩ st0 ⟨none, "add", ""⟩
        ⟨3, none, none⟩).1.impls = [(⟨some "otherlib", "add", ""⟩, none, 3)]) :=
  ⟨((C3_theorem.1 ⟨.DEF, some "myns", none, []⟩ st0 sampleSchema "myns"
      (Or.inl rfl) rfl rfl).1 rfl),
   ((C3_theorem.2 ⟨.IMPL, some "otherlib", none, []⟩ st0 ⟨some "mylib", "add", ""⟩
      ⟨3, none, none⟩ "otherlib" rfl).2.1 "mylib" rfl (by decide)),
   ((C3_theorem.2 ⟨.IMPL, some "otherlib", none, []⟩ st0 ⟨none, "add", ""⟩
      ⟨3, none, none⟩ "otherlib" rfl).2.2 rfl).2⟩

/-! ## C7 -/

/-- C7: in `bind(name, kernel)` (with the operator name unqualified and the
Session namespace present, so that name resolution passes), a dispatch key on
both the kernel and the Session is a configuration error raised before any
Registry mutation; otherwise the implementation is registered under the
effective dispatch key — the kernel's when present, else the Session's, else
absent. -/
theorem C7_theorem (lib : Library) (st : DispatcherState) (name0 : OperatorName)
    (f : CppFunction) (lns : String) (hn0 : name0.ns = none) (hns : lib.ns = some lns) :
    (f.dispatchKey.isSome → lib.dispatchKey.isSome →
      lib.implOp st name0 f = (st, lib, some (.config .implDispatchKeyConflict)))
    ∧ (¬(f.dispatchKey.isSome = true ∧ lib.dispatchKey.isSome = true) →
      (lib.implOp st name0 f).2.2 = none →
      (lib.implOp st name0 f).1.impls
        = (⟨some lns, name0.name, name0.overloadName⟩,
           (if f.dispatchKey.isSome then f.dispatchKey else lib.dispatchKey), f.func)
          :: st.impls) := by
  constructor
  · intro hf hl
    unfold Library.implOp
    rw [hn0, hns]
    simp [hf, hl]
  · intro hcond
    unfold Library.implOp
    rw [hn0, hns]
    simp only []
    rw [if_neg hcond]
    cases hreg : registerImpl st { name0 with ns := some lns }
        (if f.dispatchKey.isSome then f.dispatchKey else lib.dispatchKey) f.func f.schema with
    | error e =>
        intro h
        cases h
    | ok p =>
        obtain ⟨st1, hh⟩ := p
        obtain ⟨hst1, hhh⟩ := registerImpl_ok hreg
        subst hst1
        subst hhh
        intro _
        rfl

/-- C7 witness: the theorem applied at concrete inputs — both keys set is the
conflict error; kernel key only, session key only, and no key at all give the
expected effective keys. -/
theorem C7_witness :
    Library.implOp ⟨.IMPL, some "myns", some (.Key 1), []⟩ st0 ⟨none, "op", ""⟩
        ⟨3, some (.Key 2), none⟩
      = (st0, ⟨.IMPL, some "myns", some (.Key 1), []⟩,
         some (.config .implDispatchKeyConflict))
    ∧ (Library.implOp ⟨.IMPL, some "myns", some (.Key 1), []⟩ st0 ⟨none, "op", ""⟩
        ⟨3, none, none⟩).1.impls = [(⟨some "myns", "op", ""⟩, some (.Key 1), 3)]
    ∧ (Library.implOp ⟨.IMPL, some "myns", none, []⟩ st0 ⟨none, "op", ""⟩
        ⟨3, some (.Key 2), none⟩).1.impls = [(⟨some "myns", "op", ""⟩, some (.Key 2), 3)]
    ∧ (Library.implOp ⟨.IMPL, some "myns", none, []⟩ st0 ⟨none, "op", ""⟩
        ⟨3, none, none⟩).1.impls = [(⟨some "myns", "op", ""⟩, none, 3)] :=
  ⟨(C7_theorem ⟨.IMPL, some "myns", some (.Key 1), []⟩ st0 ⟨none, "op", ""⟩
      ⟨3, some (.Key 2), none⟩ "myns" rfl rfl).1 rfl rfl,
   (C7_theorem ⟨.IMPL, some "myns", some (.Key 1), []⟩ st0 ⟨none, "op", ""⟩
      ⟨3, none, none⟩ "myns" rfl rfl).2 (by simp) rfl,
   (C7_theorem ⟨.IMPL, some "myns", none, []⟩ st0 ⟨none, "op", ""⟩
      ⟨3, some (.Key 2), none⟩ "myns" rfl rfl).2 (by simp) rfl,
   (C7_theorem ⟨.IMPL, some "myns", none, []⟩ st0 ⟨none, "op", ""⟩
      ⟨3, none, none⟩ "myns" rfl rfl).2 (by simp) rfl⟩

/-! ## C8 -/

/-- C8: Session construction normalizes the wildcard namespace "_" and the
catch-all dispatch key to absent (every successfully constructed Session
carries the normalized values); after normalization a Definition- or
Fragment-kind construction fails whenever the namespace is absent or a
dispatch key is present; an Implementation-kind construction performs no
checks at all; and a successful Definition-kind construction reserves its
namespace in the Registry and stores the reservation handle. -/
theorem C8_theorem (st : DispatcherState) (kind : Kind) (ns0 : String)
    (k0 : Option DispatchKey) :
    (∀ lb, (Library.init st kind ns0 k0).2 = .ok lb →
      lb.kind = kind ∧ lb.ns = normalizeNs ns0 ∧ lb.dispatchKey = normalizeKey k0)
    ∧ ((kind = .DEF ∨ kind = .FRAGMENT) →
        (normalizeNs ns0 = none ∨ (normalizeKey k0).isSome) →
        ∃ e, (Library.init st kind ns0 k0).2 = .error e)
    ∧ (kind = .IMPL →
        Library.init st kind ns0 k0 = (st, .ok ⟨.IMPL, normalizeNs ns0, normalizeKey k0, []⟩))
    ∧ ∀ lb, kind = .DEF → (Library.init st kind ns0 k0).2 = .ok lb →
        ∃ n, normalizeNs ns0 = some n ∧ lb.registrars = [.lib n]
          ∧ (Library.init st kind ns0 k0).1 = { st with libs := n :: st.libs } := by
  cases kind with
  | DEF =>
      simp only [Library.init]
      split
      · refine ⟨?_, ?_, ?_, ?_⟩
        · intro lb h
          simp at h
        · intro _ _
          exact ⟨_, rfl⟩
        · intro h
          simp at h
        · intro lb _ h
          simp at h
      · rename_i n hn
        split
        · rename_i e hreg
          refine ⟨?_, ?_, ?_, ?_⟩
          · intro lb h
            simp at h
          · intro _ _
            exact ⟨e, rfl⟩
          · intro h
            simp at h
          · intro lb _ h
            simp at h
        · rename_i st1 hh hreg
          obtain ⟨hst1, hhh⟩ := registerLibrary_ok hreg
          subst hst1
          subst hhh
          split
          · refine ⟨?_, ?_, ?_, ?_⟩
            · intro lb h
              simp at h
            · intro _ _
              exact ⟨_, rfl⟩
            · intro h
              simp at h
            · intro lb _ h
              simp at h
          · rename_i hdk
            refine ⟨?_, ?_, ?_, ?_⟩
            · intro lb h
              simp only [Except.ok.injEq] at h
              rw [← h]
              exact ⟨rfl, rfl, rfl⟩
            · intro _ habs
              rcases habs with habs | habs
              · rw [hn] at habs
                cases habs
              · exact absurd habs hdk
            · intro h
              simp at h
            · intro lb _ h
              simp only [Except.ok.injEq] at h
              rw [← h]
              exact ⟨n, hn, rfl, rfl⟩
  | FRAGMENT =>
      simp only [Library.init]
      split
      · rename_i hni
        refine ⟨?_, ?_, ?_, ?_⟩
        · intro lb h
          simp at h
        · intro _ _
          exact ⟨_, rfl⟩
        · intro h
          simp at h
        · intro lb h
          simp at h
      · rename_i hni
        split
        · rename_i hdk
          refine ⟨?_, ?_, ?_, ?_⟩
          · intro lb h
            simp at h
          · intro _ _
            exact ⟨_, rfl⟩
          · intro h
            simp at h
          · intro lb h
            simp at h
        · rename_i hdk
          refine ⟨?_, ?_, ?_, ?_⟩
          · intro lb h
            simp only [Except.ok.injEq] at h
            rw [← h]
            exact ⟨rfl, rfl, rfl⟩
          · intro _ habs
            rcases habs with habs | habs
            · rw [habs] at hni
              exact absurd rfl hni
            · exact absurd habs hdk
          · intro h
            simp at h
          · intro lb h
            simp at h
  | IMPL =>
      refine ⟨?_, ?_, ?_, ?_⟩
      · intro lb h
        simp only [Library.init, Except.ok.injEq] at h
        rw [← h]
        exact ⟨rfl, rfl, rfl⟩
      · intro h
        cases h with
        | inl h => simp at h
        | inr h => simp at h
      · intro _
        rfl
      · intro lb h
        simp at h

/-- C8 witness: the theorem applied at concrete inputs — wildcard Fragment
construction fails, Implementation construction normalizes "_" and the
catch-all key to absent with no checks, and a successful Definition
construction reserves the namespace and stores the reservation handle. -/
theorem C8_witness :
    (∃ e, (Library.init st0 .FRAGMENT "_" none).2 = .error e)
    ∧ Library.init st0 .IMPL "_" (some .CatchAll)
        = (st0, .ok ⟨.IMPL, none, none, []⟩)
    ∧ ∃ n, normalizeNs "myns" = some n
        ∧ (Library.mk .DEF (some "myns") none [.lib "myns"]).registrars = [.lib n]
        ∧ (Library.init st0 .DEF "myns" none).1 = { st0 with libs := n :: st0.libs } :=
  ⟨(C8_theorem st0 .FRAGMENT "_" none).2.1 (Or.inr rfl) (Or.inl (by decide)),
   (C8_theorem st0 .IMPL "_" (some .CatchAll)).2.2.1 rfl,
   (C8_theorem st0 .DEF "myns" none).2.2.2 ⟨.DEF, some "myns", none, [.lib "myns"]⟩ rfl
     rfl⟩

/-! ## C2 -/

theorem defSchema_shape (lib : Library) (st : DispatcherState) (schema : FunctionSchema) :
    (∃ nm e, lib.defSchema st schema = (st, lib, nm, some e))
    ∨ ∃ st1 lib1 nm, lib.defSchema st schema = (st1, lib1, nm, none) := by
  unfold Library.defSchema
  repeat' first
    | exact Or.inl ⟨_, _, rfl⟩
    | exact Or.inr ⟨_, _, _, rfl⟩
    | split
    | dsimp only []

theorem implOp_shape (lib : Library) (st : DispatcherState) (name0 : OperatorName)
    (f : CppFunction) :
    (∃ e, lib.implOp st name0 f = (st, lib, some e))
    ∨ ∃ st1 lib1, lib.implOp st name0 f = (st1, lib1, none) := by
  unfold Library.implOp
  repeat' first
    | exact Or.inl ⟨_, rfl⟩
    | exact Or.inr ⟨_, _, rfl⟩
    | split
    | dsimp only []

theorem fallbackOp_shape (lib : Library) (st : DispatcherState) (f : CppFunction) :
    (∃ e, lib.fallbackOp st f = (st, lib, some e))
    ∨ ∃ st1 lib1, lib.fallbackOp st f = (st1, lib1, none) := by
  unfold Library.fallbackOp
  repeat' first
    | exact Or.inl ⟨_, rfl⟩
    | exact Or.inr ⟨_, _, rfl⟩
    | split
    | dsimp only []

theorem defSchema_error_unchanged {lib : Library} {st : DispatcherState}
    {schema : FunctionSchema} {st1 : DispatcherState} {lib1 : Library}
    {nm : Option OperatorName} {e : RegError}
    (h : lib.defSchema st schema = (st1, lib1, nm, some e)) : st1 = st ∧ lib1 = lib := by
  rcases defSchema_shape lib st schema with ⟨nmx, ex, hs⟩ | ⟨stx, libx, nmx, hs⟩
  · rw [hs] at h
    simp only [Prod.mk.injEq] at h
    exact ⟨h.1.symm, h.2.1.symm⟩
  · rw [hs] at h
    simp only [Prod.mk.injEq] at h
    exact absurd h.2.2.2 (by simp)

theorem implOp_error_unchanged {lib : Library} {st : DispatcherState}
    {name0 : OperatorName} {f : CppFunction} {st1 : DispatcherState} {lib1 : Library}
    {e : RegError}
    (h : lib.implOp st name0 f = (st1, lib1, some e)) : st1 = st ∧ lib1 = lib := by
  rcases implOp_shape lib st name0 f with ⟨ex, hs⟩ | ⟨stx, libx, hs⟩
  · rw [hs] at h
    simp only [Prod.mk.injEq] at h
    exact ⟨h.1.symm, h.2.1.symm⟩
  · rw [hs] at h
    simp only [Prod.mk.injEq] at h
    exact absurd h.2.2 (by simp)

theorem fallbackOp_error_unchanged {lib : Library} {st : DispatcherState}
    {f : CppFunction} {st1 : DispatcherState} {lib1 : Library} {e : RegError}
    (h : lib.fallbackOp st f = (st1, lib1, some e)) : st1 = st ∧ lib1 = lib := by
  rcases fallbackOp_shape lib st f with ⟨ex, hs⟩ | ⟨stx, libx, hs⟩
  · rw [hs] at h
    simp only [Prod.mk.injEq] at h
    exact ⟨h.1.symm, h.2.1.symm⟩
  · rw [hs] at h
    simp only [Prod.mk.injEq] at h
    exact absurd h.2.2 (by simp)

theorem defEither_shape (lib : Library) (st : DispatcherState)
    (nos : Sum OperatorName FunctionSchema) (f : CppFunction) :
    (∃ e, lib.defEither st nos f = (st, lib, some e))
    ∨ (∃ st1 lib1,
        lib.defEither st nos f = (st1, lib1, some (.registryConflict "registerImpl")))
    ∨ ∃ st1 lib1, lib.defEither st nos f = (st1, lib1, none) := by
  unfold Library.defEither
  dsimp only []
  split
  · exact Or.inl ⟨_, rfl⟩
  · rename_i schema heq
    split
    · rename_i stx libx x ex heq2
      obtain ⟨h1, h2⟩ := defSchema_error_unchanged heq2
      subst h1
      subst h2
      exact Or.inl ⟨_, rfl⟩
    · rename_i stx libx nameOpt heq2
      cases hreg : registerImpl stx (nameOpt.getD ⟨none, "", ""⟩)
          (if f.dispatchKey.isSome then f.dispatchKey else libx.dispatchKey)
          f.func f.schema with
      | error ex =>
          rw [registerImpl_error hreg]
          exact Or.inr (Or.inl ⟨_, _, rfl⟩)
      | ok p =>
          exact Or.inr (Or.inr ⟨_, _, rfl⟩)

theorem registerImplsLoop_shape (nm : OperatorName) :
    ∀ (ks : List KernelEntry) (st : DispatcherState) (rs : List RegistrationHandle),
      (∃ st1 rs1, RegisterOperators.registerImplsLoop st rs nm ks
          = (st1, rs1, some (.registryConflict "registerImpl")))
      ∨ ∃ st1 rs1, RegisterOperators.registerImplsLoop st rs nm ks = (st1, rs1, none) := by
  intro ks
  induction ks with
  | nil =>
      intro st rs
      exact Or.inr ⟨_, _, rfl⟩
  | cons k rest ih =>
      intro st rs
      unfold RegisterOperators.registerImplsLoop
      split
      · rename_i e hreg
        rw [registerImpl_error hreg]
        exact Or.inl ⟨_, _, rfl⟩
      · exact ih _ _

theorem registerOp_shape (st : DispatcherState) (rs : List RegistrationHandle)
    (opts : Options) :
    (∃ e, RegisterOperators.registerOp st rs opts = (st, rs, some e))
    ∨ (∃ st1 rs1, RegisterOperators.registerOp st rs opts
        = (st1, rs1, some (.registryConflict "registerImpl")))
    ∨ ∃ st1 rs1, RegisterOperators.registerOp st rs opts = (st1, rs1, none) := by
  unfold RegisterOperators.registerOp
  split
  · rename_i schema0 heq
    dsimp only []
    split
    · exact Or.inl ⟨_, rfl⟩
    · rename_i st1 hh hreg
      rcases registerImplsLoop_shape
          (RegisterOperators.applyAliasOverride opts.aliasAnalysisKind schema0).operatorName
          opts.kernels st1 (rs ++ [hh]) with ⟨stx, rsx, hs⟩ | ⟨stx, rsx, hs⟩
      · rw [hs]
        exact Or.inr (Or.inl ⟨_, _, rfl⟩)
      · rw [hs]
        exact Or.inr (Or.inr ⟨_, _, rfl⟩)
  · exact Or.inl ⟨_, rfl⟩

theorem batch_shape (st : DispatcherState) (rs : List RegistrationHandle)
    (opts : Options) :
    (∃ e, RegisterOperators.checkSchemaAndRegisterOp st rs opts = (st, rs, some e))
    ∨ (∃ st1 rs1, RegisterOperators.checkSchemaAndRegisterOp st rs opts
        = (st1, rs1, some (.registryConflict "registerImpl")))
    ∨ ∃ st1 rs1, RegisterOperators.checkSchemaAndRegisterOp st rs opts = (st1, rs1, none) := by
  unfold RegisterOperators.checkSchemaAndRegisterOp
  split
  · exact Or.inl ⟨_, rfl⟩
  · split
    · exact Or.inl ⟨_, rfl⟩
    · exact registerOp_shape st rs opts
  · split
    · exact Or.inl ⟨_, rfl⟩
    · dsimp only []
      split
      · exact Or.inl ⟨_, rfl⟩
      · split
        · exact Or.inl ⟨_, rfl⟩
        · exact registerOp_shape st rs _

theorem defEither_core_unchanged {lib : Library} {st : DispatcherState}
    {nos : Sum OperatorName FunctionSchema} {f : CppFunction}
    {st1 : DispatcherState} {lib1 : Library} {e : RegError}
    (h : lib.defEither st nos f = (st1, lib1, some e)) (hc : e.isCoreError = true) :
    st1 = st ∧ lib1 = lib := by
  rcases defEither_shape lib st nos f with ⟨ex, hs⟩ | ⟨stx, libx, hs⟩ | ⟨stx, libx, hs⟩ <;>
    rw [hs] at h <;> simp only [Prod.mk.injEq] at h
  · exact ⟨h.1.symm, h.2.1.symm⟩
  · obtain ⟨-, -, h3⟩ := h
    simp only [Option.some.injEq] at h3
    rw [← h3] at hc
    simp [RegError.isCoreError] at hc
  · exact absurd h.2.2 (by simp)

theorem batch_core_unchanged {st : DispatcherState} {rs : List RegistrationHandle}
    {opts : Options} {st1 : DispatcherState} {rs1 : List RegistrationHandle} {e : RegError}
    (h : RegisterOperators.checkSchemaAndRegisterOp st rs opts = (st1, rs1, some e))
    (hc : e.isCoreError = true) : st1 = st ∧ rs1 = rs := by
  rcases batch_shape st rs opts with ⟨ex, hs⟩ | ⟨stx, rsx, hs⟩ | ⟨stx, rsx, hs⟩ <;>
    rw [hs] at h <;> simp only [Prod.mk.injEq] at h
  · exact ⟨h.1.symm, h.2.1.symm⟩
  · obtain ⟨-, -, h3⟩ := h
    simp only [Option.some.injEq] at h3
    rw [← h3] at hc
    simp [RegError.isCoreError] at hc
  · exact absurd h.2.2 (by simp)

/-- A concrete dispatcher state that already holds an implementation for
(`myns::op`, key 1), so a batch commit of that operator registers its
definition and then hits a Registry conflict on the implementation. -/
def st2 : DispatcherState := ⟨[], [], [(sampleName, some (.Key 1), 7)], []⟩

/-- The batch configuration committed against `st2` in the C2
counterexample. -/
def optsC2 : Options := ⟨some (Sum.inr sampleSchema), [⟨5, some (.Key 1), none⟩], none⟩

/-- C2 counterexample: a batch commit whose definition registration succeeds
and whose implementation registration then fails in the Registry propagates
the error while the definition stays committed and its revocation handle
stays in the owner's list — the operation does not fail free of partial
visible effect. -/
theorem C2_counterexample :
    (RegisterOperators.checkSchemaAndRegisterOp st2 [] optsC2).2.2.isSome = true
    ∧ (RegisterOperators.checkSchemaAndRegisterOp st2 [] optsC2).2.1 ≠ []
    ∧ (RegisterOperators.checkSchemaAndRegisterOp st2 [] optsC2).1 ≠ st2 := by
  refine ⟨rfl, ?_, ?_⟩ <;> decide

/-- C2 (amended): every error detected by the core's own checks (configuration
errors, internal asserts, absent-optional accesses) is raised before the
operation's first Registry mutation, so the dispatcher state and the owner's
handle list are unchanged; the single-registration operations (`define`,
`bind`, `bindFallback`) are additionally atomic under Registry failures; but a
multi-registration operation (`define`-with-kernel, batch commit) that fails
inside the Registry after earlier Registry calls succeeded keeps those earlier
registrations committed and their handles in the owner's list. -/
theorem C2_theorem :
    (∀ (lib : Library) (st : DispatcherState) (schema : FunctionSchema)
       (st1 : DispatcherState) (lib1 : Library) (nm : Option OperatorName) (e : RegError),
      lib.defSchema st schema = (st1, lib1, nm, some e) → st1 = st ∧ lib1 = lib)
    ∧ (∀ (lib : Library) (st : DispatcherState) (name0 : OperatorName) (f : CppFunction)
        (st1 : DispatcherState) (lib1 : Library) (e : RegError),
      lib.implOp st name0 f = (st1, lib1, some e) → st1 = st ∧ lib1 = lib)
    ∧ (∀ (lib : Library) (st : DispatcherState) (f : CppFunction)
        (st1 : DispatcherState) (lib1 : Library) (e : RegError),
      lib.fallbackOp st f = (st1, lib1, some e) → st1 = st ∧ lib1 = lib)
    ∧ (∀ (lib : Library) (st : DispatcherState) (nos : Sum OperatorName FunctionSchema)
        (f : CppFunction) (st1 : DispatcherState) (lib1 : Library) (e : RegError),
      lib.defEither st nos f = (st1, lib1, some e) → e.isCoreError = true →
      st1 = st ∧ lib1 = lib)
    ∧ ∀ (st : DispatcherState) (rs : List RegistrationHandle) (opts : Options)
        (st1 : DispatcherState) (rs1 : List RegistrationHandle) (e : RegError),
      RegisterOperators.checkSchemaAndRegisterOp st rs opts = (st1, rs1, some e) →
      e.isCoreError = true → st1 = st ∧ rs1 = rs :=
  ⟨fun _ _ _ _ _ _ _ h => defSchema_error_unchanged h,
   fun _ _ _ _ _ _ _ h => implOp_error_unchanged h,
   fun _ _ _ _ _ _ h => fallbackOp_error_unchanged h,
   fun _ _ _ _ _ _ _ h hc => defEither_core_unchanged h hc,
   fun _ _ _ _ _ _ h hc => batch_core_unchanged h hc⟩

/-- C2 witness: the amended theorem applied at a concrete erroring `bind`
(redundant namespace): the state and the session are untouched. -/
theorem C2_witness :
    Library.implOp ⟨.IMPL, some "myns", none, []⟩ st0 sampleName ⟨3, none, none⟩
      = (st0, ⟨.IMPL, some "myns", none, []⟩, some (.config (.implRedundantNs "myns")))
    ∧ (st0 = st0 ∧ (⟨.IMPL, some "myns", none, []⟩ : Library) = ⟨.IMPL, some "myns", none, []⟩) :=
  ⟨by decide,
   C2_theorem.2.1 ⟨.IMPL, some "myns", none, []⟩ st0 sampleName ⟨3, none, none⟩
     st0 ⟨.IMPL, some "myns", none, []⟩ (.config (.implRedundantNs "myns")) (by decide)⟩

/-! ## C4 -/

theorem checkNoDuplicateKernelsGo_ok_iff :
    ∀ (ks : List KernelEntry) (seen : List DispatchKey) (c : Bool),
      RegisterOperators.checkNoDuplicateKernelsGo ks seen c = .ok () ↔
      ((ks.filterMap (fun k => k.dispatchKey)).Nodup
        ∧ (∀ dk ∈ ks.filterMap (fun k => k.dispatchKey), dk ∉ seen)
        ∧ ks.countP (fun k => k.dispatchKey.isNone) ≤ (if c then 0 else 1)) := by
  intro ks
  induction ks with
  | nil =>
      intro seen c
      simp [RegisterOperators.checkNoDuplicateKernelsGo]
  | cons k rest ih =>
      intro seen c
      unfold RegisterOperators.checkNoDuplicateKernelsGo
      split
      · rename_i dk hdk
        by_cases hmem : dk ∈ seen
        · rw [if_pos hmem]
          constructor
          · intro h
            exact absurd h (by simp)
          · rintro ⟨-, hseen, -⟩
            exact absurd hmem (hseen dk (by simp [List.filterMap_cons_some hdk]))
        · rw [if_neg hmem, ih (dk :: seen) c, List.filterMap_cons_some hdk]
          have hcp : List.countP (fun k => k.dispatchKey.isNone) (k :: rest)
              = List.countP (fun k => k.dispatchKey.isNone) rest := by
            simp [hdk]
          rw [hcp]
          constructor
          · rintro ⟨hnd, hseen, hcnt⟩
            refine ⟨?_, ?_, hcnt⟩
            · exact List.nodup_cons.mpr
                ⟨fun hin => (hseen dk hin) (List.mem_cons_self _ _), hnd⟩
            · intro x hx
              rcases List.mem_cons.mp hx with rfl | hx1
              · exact hmem
              · exact fun hxs => (hseen x hx1) (List.mem_cons.mpr (Or.inr hxs))
          · rintro ⟨hnd, hseen, hcnt⟩
            refine ⟨(List.nodup_cons.mp hnd).2, ?_, hcnt⟩
            intro x hx hxmem
            rcases List.mem_cons.mp hxmem with rfl | hxs
            · exact (List.nodup_cons.mp hnd).1 hx
            · exact (hseen x (List.mem_cons.mpr (Or.inr hx))) hxs
      · rename_i hdk
        split
        · rename_i hc
          subst hc
          constructor
          · intro h
            exact absurd h (by simp)
          · rintro ⟨-, -, hcnt⟩
            have hone : List.countP (fun k => k.dispatchKey.isNone) (k :: rest)
                = List.countP (fun k => k.dispatchKey.isNone) rest + 1 := by
              simp [hdk]
            rw [hone] at hcnt
            simp at hcnt
        · rename_i hc
          have hc1 : c = false := by
            cases c
            · rfl
            · exact absurd rfl hc
          subst hc1
          rw [ih seen true, List.filterMap_cons_none hdk]
          have hone : List.countP (fun k => k.dispatchKey.isNone) (k :: rest)
              = List.countP (fun k => k.dispatchKey.isNone) rest + 1 := by
            simp [hdk]
          rw [hone]
          have e1 : (if (true = true) then 0 else 1) = 0 := rfl
          have e2 : (if (false = true) then 0 else 1) = 1 := rfl
          constructor
          · rintro ⟨h1, h2, h3⟩
            refine ⟨h1, h2, ?_⟩
            try rw [e1] at h3
            try rw [e2] at h3
            try rw [e1]
            try rw [e2]
            omega
          · rintro ⟨h1, h2, h3⟩
            refine ⟨h1, h2, ?_⟩
            try rw [e1] at h3
            try rw [e2] at h3
            try rw [e1]
            try rw [e2]
            omega

theorem checkNoDuplicateKernels_ok_iff (opts : Options) :
    RegisterOperators.checkNoDuplicateKernels opts = .ok () ↔
    ((opts.kernels.filterMap (fun k => k.dispatchKey)).Nodup
      ∧ opts.kernels.countP (fun k => k.dispatchKey.isNone) ≤ 1) := by
  unfold RegisterOperators.checkNoDuplicateKernels
  rw [checkNoDuplicateKernelsGo_ok_iff]
  simp

theorem checkNoDuplicateKernelsGo_error :
    ∀ (ks : List KernelEntry) (seen : List DispatchKey) (c : Bool) (e : RegError),
      RegisterOperators.checkNoDuplicateKernelsGo ks seen c = .error e →
      ∃ m, e = .config m := by
  intro ks
  induction ks with
  | nil =>
      intro seen c e h
      simp [RegisterOperators.checkNoDuplicateKernelsGo] at h
  | cons k rest ih =>
      intro seen c e h
      unfold RegisterOperators.checkNoDuplicateKernelsGo at h
      split at h
      · split at h
        · simp only [Except.error.injEq] at h
          exact ⟨_, h.symm⟩
        · exact ih _ _ _ h
      · split at h
        · simp only [Except.error.injEq] at h
          exact ⟨_, h.symm⟩
        · exact ih _ _ _ h

theorem inferSchemaFromKernels_error {nm : OperatorName} {opts : Options} {e : RegError}
    (h : RegisterOperators.inferSchemaFromKernels nm opts = .error e) :
    ∃ m, e = .config m := by
  unfold RegisterOperators.inferSchemaFromKernels at h
  split at h
  · split at h
    · cases h
    · simp only [Except.error.injEq] at h
      exact ⟨_, h.symm⟩
  · simp only [Except.error.injEq] at h
    exact ⟨_, h.symm⟩

/-- C4: the duplicate-kernel check passes exactly when all present dispatch
keys are pairwise distinct and at most one kernel is keyless; and whenever
that condition is violated, the batch commit fails with a configuration error
with the dispatcher state and the handle list untouched (zero handles
produced). -/
theorem C4_theorem :
    (∀ opts : Options,
      RegisterOperators.checkNoDuplicateKernels opts = .ok () ↔
      ((opts.kernels.filterMap (fun k => k.dispatchKey)).Nodup
        ∧ opts.kernels.countP (fun k => k.dispatchKey.isNone) ≤ 1))
    ∧ ∀ (st : DispatcherState) (rs : List RegistrationHandle) (opts : Options),
      ¬((opts.kernels.filterMap (fun k => k.dispatchKey)).Nodup
        ∧ opts.kernels.countP (fun k => k.dispatchKey.isNone) ≤ 1) →
      ∃ m, RegisterOperators.checkSchemaAndRegisterOp st rs opts
        = (st, rs, some (.config m)) := by
  constructor
  · exact checkNoDuplicateKernels_ok_iff
  · intro st rs opts hdup
    unfold RegisterOperators.checkSchemaAndRegisterOp
    split
    · exact ⟨.noSchemaOrName, rfl⟩
    · cases hchk : RegisterOperators.checkNoDuplicateKernels opts with
      | error e =>
          obtain ⟨m, rfl⟩ := checkNoDuplicateKernelsGo_error _ _ _ _ hchk
          exact ⟨m, rfl⟩
      | ok u =>
          cases u
          exact absurd ((checkNoDuplicateKernels_ok_iff opts).mp hchk) hdup
    · rename_i name heq
      cases hinf : RegisterOperators.inferSchemaFromKernels name opts with
      | error e =>
          obtain ⟨m, rfl⟩ := inferSchemaFromKernels_error hinf
          exact ⟨m, rfl⟩
      | ok inferred =>
          dsimp only []
          cases hchk : RegisterOperators.checkNoDuplicateKernels
              ⟨some (Sum.inr (RegisterOperators.graftSchema name inferred)),
               opts.kernels, opts.aliasAnalysisKind⟩ with
          | error e =>
              obtain ⟨m, rfl⟩ := checkNoDuplicateKernelsGo_error _ _ _ _ hchk
              exact ⟨m, rfl⟩
          | ok u =>
              cases u
              exact absurd ((checkNoDuplicateKernels_ok_iff _).mp hchk) hdup

/-- A batch configuration with two kernels carrying the same dispatch key. -/
def optsDup : Options :=
  ⟨some (Sum.inr sampleSchema), [⟨1, some (.Key 1), none⟩, ⟨2, some (.Key 1), none⟩], none⟩

/-- C4 witness: the theorem applied to the concrete duplicate-key
configuration {Key 1, Key 1}. -/
theorem C4_witness :
    ¬((optsDup.kernels.filterMap (fun k => k.dispatchKey)).Nodup
      ∧ optsDup.kernels.countP (fun k => k.dispatchKey.isNone) ≤ 1)
    ∧ ∃ m, RegisterOperators.checkSchemaAndRegisterOp st0 [] optsDup
        = (st0, [], some (.config m)) :=
  ⟨by decide, C4_theorem.2 st0 [] optsDup (by decide)⟩

/-! ## C5 -/

theorem batch_inl_eq (st : DispatcherState) (rs : List RegistrationHandle)
    (opts : Options) (nm : OperatorName)
    (hso : opts.schemaOrName = some (Sum.inl nm)) :
    RegisterOperators.checkSchemaAndRegisterOp st rs opts =
      match RegisterOperators.inferSchemaFromKernels nm opts with
      | .error e => (st, rs, some e)
      | .ok inferred =>
        match RegisterOperators.checkNoDuplicateKernels
            ⟨some (Sum.inr (RegisterOperators.graftSchema nm inferred)),
             opts.kernels, opts.aliasAnalysisKind⟩ with
        | .error e => (st, rs, some e)
        | .ok _ =>
          if opts.aliasAnalysisKind = some AliasAnalysisKind.FROM_SCHEMA then
            (st, rs, some (.config .fromSchemaOnInferred))
          else RegisterOperators.registerOp st rs
            ⟨some (Sum.inr (RegisterOperators.graftSchema nm inferred)),
             opts.kernels, opts.aliasAnalysisKind⟩ := by
  unfold RegisterOperators.checkSchemaAndRegisterOp
  rw [hso]

/-- C5: for a batch commit with a bare name (no explicit schema) and a
non-empty kernel list, the definition that reaches the Registry is exactly the
first (in list order) kernel's inferable fragment with the supplied operator
name grafted on (and the alias-analysis override applied, as `registerOp_`
does) — later fragments never enter the registered schema; and when no kernel
has an inferable fragment the commit fails with the configuration error naming
the operator, the state and handle list untouched. -/
theorem C5_theorem (st : DispatcherState) (rs : List RegistrationHandle) (opts : Options)
    (nm : OperatorName) (hso : opts.schemaOrName = some (Sum.inl nm))
    (hk : opts.kernels ≠ []) :
    (∀ s, RegisterOperators.firstInferredSchema opts.kernels = some s →
      ((RegisterOperators.checkSchemaAndRegisterOp st rs opts).1.defs = st.defs
          ∧ (RegisterOperators.checkSchemaAndRegisterOp st rs opts).2.2.isSome = true)
      ∨ (RegisterOperators.checkSchemaAndRegisterOp st rs opts).1.defs
          = RegisterOperators.applyAliasOverride opts.aliasAnalysisKind
              (RegisterOperators.graftSchema nm s) :: st.defs)
    ∧ (RegisterOperators.firstInferredSchema opts.kernels = none →
      RegisterOperators.checkSchemaAndRegisterOp st rs opts
        = (st, rs, some (.config (.cannotInferSchema nm)))) := by
  have hpos : opts.kernels.length > 0 := List.length_pos.mpr hk
  constructor
  · intro s hfirst
    have hinf : RegisterOperators.inferSchemaFromKernels nm opts = .ok s := by
      unfold RegisterOperators.inferSchemaFromKernels
      rw [if_pos hpos, hfirst]
    rw [batch_inl_eq st rs opts nm hso, hinf]
    dsimp only []
    cases hchk : RegisterOperators.checkNoDuplicateKernels
        ⟨some (Sum.inr (RegisterOperators.graftSchema nm s)),
         opts.kernels, opts.aliasAnalysisKind⟩ with
    | error e =>
        exact Or.inl ⟨rfl, rfl⟩
    | ok u =>
        cases u
        dsimp only []
        split
        · exact Or.inl ⟨rfl, rfl⟩
        · unfold RegisterOperators.registerOp
          dsimp only []
          cases hdef : registerDef st
              (RegisterOperators.applyAliasOverride opts.aliasAnalysisKind
                (RegisterOperators.graftSchema nm s)) with
          | error e =>
              exact Or.inl ⟨rfl, rfl⟩
          | ok p =>
              obtain ⟨st1, hh⟩ := p
              obtain ⟨hst1, hhh⟩ := registerDef_ok hdef
              subst hst1
              subst hhh
              refine Or.inr ?_
              rw [registerImplsLoop_defs]
  · intro hfirst
    have hinf : RegisterOperators.inferSchemaFromKernels nm opts
        = .error (.config (.cannotInferSchema nm)) := by
      unfold RegisterOperators.inferSchemaFromKernels
      rw [if_pos hpos, hfirst]
    rw [batch_inl_eq st rs opts nm hso, hinf]

/-- A fragment with argument/return tags (10)/(11), inferable from the second
kernel of `optsInfer`. -/
def fragA : FunctionSchema := ⟨none, "", "", [10], [11], false, false, .CONSERVATIVE⟩

/-- A different fragment carried by the third kernel of `optsInfer`; the claim
says it is ignored. -/
def fragB : FunctionSchema := ⟨none, "", "", [20], [21], false, false, .CONSERVATIVE⟩

/-- A batch configuration with a bare name, a first kernel with no inferable
fragment, a second kernel with fragment `fragA`, and a third with `fragB`. -/
def optsInfer : Options :=
  ⟨some (Sum.inl ⟨some "myns", "op2", ""⟩),
   [⟨1, some (.Key 1), none⟩, ⟨2, some (.Key 2), some fragA⟩, ⟨3, none, some fragB⟩], none⟩

/-- C5 witness: in the concrete configuration the first inferable fragment is
`fragA`, and the committed definition is the graft of the supplied name onto
`fragA` (the later fragment `fragB` is ignored). -/
theorem C5_witness :
    RegisterOperators.firstInferredSchema optsInfer.kernels = some fragA
    ∧ (((RegisterOperators.checkSchemaAndRegisterOp st0 [] optsInfer).1.defs = st0.defs
          ∧ (RegisterOperators.checkSchemaAndRegisterOp st0 [] optsInfer).2.2.isSome = true)
      ∨ (RegisterOperators.checkSchemaAndRegisterOp st0 [] optsInfer).1.defs
          = RegisterOperators.applyAliasOverride none
              (RegisterOperators.graftSchema ⟨some "myns", "op2", ""⟩ fragA) :: st0.defs) :=
  ⟨rfl,
   (C5_theorem st0 [] optsInfer ⟨some "myns", "op2", ""⟩ rfl (by decide)).1 fragA rfl⟩

end OpReg
